import Mathlib

/-!
Shallow embedding of the Minimeyes clinical-trial minimisation core
(`minimiser.py`, the `add_patient` entry of `data_manager.py`, and the
balance-table display of `app.py`), together with proofs settling the
specification claims.

Python floats only enter through `int(hash_value[:8], 16) / 0xffffffff`
and `int(rand * len(arms))`; for these quantities the IEEE-double results
coincide with exact rational arithmetic (the hash ratio `h / (2^32-1)`
is at distance at least `2^-32` from every other breakpoint while the
double rounding error is below `n * 2^-52` for the tiny arm counts `n`
involved), so the embedding uses `ℚ` exactly.
-/

namespace Minimeyes

/-! ### SHA-256 over `Nat` (bytes in, 32-bit words out)

`Minimiser.deterministic_random` computes
`int(sha256(f"{key}_{seed}").hexdigest()[:8], 16)`, i.e. the first
32-bit word of the digest, big-endian. -/

/-- Reduction modulo `2^32`, the word size of SHA-256. -/
def m32 (x : Nat) : Nat := x % 4294967296

/-- Right rotation of a 32-bit word by `n` bits. -/
def rotr (n x : Nat) : Nat := m32 ((x >>> n) ||| (x <<< (32 - n)))

/-- SHA-256 choice function. -/
def chF (e f g : Nat) : Nat := (e &&& f) ^^^ ((e ^^^ 4294967295) &&& g)

/-- SHA-256 majority function. -/
def majF (a b c : Nat) : Nat := (a &&& b) ^^^ (a &&& c) ^^^ (b &&& c)

/-- SHA-256 big sigma 0. -/
def bigSigma0 (a : Nat) : Nat := rotr 2 a ^^^ rotr 13 a ^^^ rotr 22 a

/-- SHA-256 big sigma 1. -/
def bigSigma1 (e : Nat) : Nat := rotr 6 e ^^^ rotr 11 e ^^^ rotr 25 e

/-- SHA-256 small sigma 0. -/
def smallSigma0 (x : Nat) : Nat := rotr 7 x ^^^ rotr 18 x ^^^ (x >>> 3)

/-- SHA-256 small sigma 1. -/
def smallSigma1 (x : Nat) : Nat := rotr 17 x ^^^ rotr 19 x ^^^ (x >>> 10)

/-- The 64 SHA-256 round constants (the fractional parts of the cube
roots of the first 64 primes), written in decimal. -/
def K256 : List Nat :=
  [1116352408, 1899447441, 3049323471, 3921009573, 961987163,
   1508970993, 2453635748, 2870763221, 3624381080, 310598401,
   607225278, 1426881987, 1925078388, 2162078206, 2614888103,
   3248222580, 3835390401, 4022224774, 264347078, 604807628,
   770255983, 1249150122, 1555081692, 1996064986, 2554220882,
   2821834349, 2952996808, 3210313671, 3336571891, 3584528711,
   113926993, 338241895, 666307205, 773529912, 1294757372,
   1396182291, 1695183700, 1986661051, 2177026350, 2456956037,
   2730485921, 2820302411, 3259730800, 3345764771, 3516065817,
   3600352804, 4094571909, 275423344, 430227734, 506948616,
   659060556, 883997877, 958139571, 1322822218, 1537002063,
   1747873779, 1955562222, 2024104815, 2227730452, 2361852424,
   2428436474, 2756734187, 3204031479, 3329325298]

/-- State of the compression function: eight 32-bit words. -/
abbrev W8 := Nat × Nat × Nat × Nat × Nat × Nat × Nat × Nat

/-- The SHA-256 initial hash value, in decimal. -/
def IV : W8 :=
  (1779033703, 3144134277, 1013904242, 2773480762,
   1359893119, 2600822924, 528734635, 1541459225)

/-- One round of the SHA-256 compression function. -/
def round1 : W8 → Nat × Nat → W8 :=
  fun (a, b, c, d, e, f, g, h) (k, w) =>
    let t1 := h + bigSigma1 e + chF e f g + k + w
    let t2 := bigSigma0 a + majF a b c
    (m32 (t1 + t2), a, b, c, m32 (d + t1), e, f, g)

/-- Extend the 16-word message schedule; `acc` holds the words seen so
far, most recent first. -/
def extendW : Nat → List Nat → List Nat
  | 0, acc => acc
  | n + 1, acc =>
      let w := m32 (smallSigma1 (acc.getD 1 0) + acc.getD 6 0 + smallSigma0 (acc.getD 14 0) + acc.getD 15 0)
      extendW n (w :: acc)

/-- The 64-word message schedule of one 16-word block. -/
def schedule (block : List Nat) : List Nat := (extendW 48 block.reverse).reverse

/-- Process one 16-word block: 64 compression rounds, then add the
result to the incoming state, word-wise modulo `2^32`. -/
def stepBlock (H : W8) (block : List Nat) : W8 :=
  match H, (List.zip K256 (schedule block)).foldl round1 H with
  | (a, b, c, d, e, f, g, h), (a2, b2, c2, d2, e2, f2, g2, h2) =>
      (m32 (a + a2), m32 (b + b2), m32 (c + c2), m32 (d + d2),
       m32 (e + e2), m32 (f + f2), m32 (g + g2), m32 (h + h2))

/-- Group bytes into big-endian 32-bit words. -/
def toWords : List Nat → List Nat
  | b0 :: b1 :: b2 :: b3 :: rest =>
      ((b0 <<< 24) ||| (b1 <<< 16) ||| (b2 <<< 8) ||| b3) :: toWords rest
  | _ => []

/-- Group a word list into 16-word blocks. -/
def toBlocks : List Nat → List (List Nat)
  | w0 :: w1 :: w2 :: w3 :: w4 :: w5 :: w6 :: w7 ::
    w8 :: w9 :: w10 :: w11 :: w12 :: w13 :: w14 :: w15 :: rest =>
      [w0, w1, w2, w3, w4, w5, w6, w7, w8, w9, w10, w11, w12, w13, w14, w15] :: toBlocks rest
  | _ => []

/-- SHA-256 padding: append `0x80`, zeros, and the bit length as a
big-endian 64-bit integer, to a multiple of 64 bytes. -/
def padMsg (msg : List Nat) : List Nat :=
  let L := msg.length
  let zeros := List.replicate ((119 - L % 64) % 64) 0
  let lenBytes := [56, 48, 40, 32, 24, 16, 8, 0].map (fun s => ((L * 8) % 18446744073709551616) >>> s &&& 255)
  msg ++ (128 :: zeros) ++ lenBytes

/-- The eight 32-bit words of the SHA-256 digest of a byte string. -/
def sha256Words (msg : List Nat) : W8 :=
  (toBlocks (toWords (padMsg msg))).foldl stepBlock IV

/-- The first digest word: `int(hexdigest()[:8], 16)`. -/
def sha256FirstWord (msg : List Nat) : Nat := (sha256Words msg).1

/-- UTF-8 encoding of one character (`str.encode()` in the source). -/
def utf8Char (c : Char) : List Nat :=
  let n := c.toNat
  if n < 128 then [n]
  else if n < 2048 then [192 ||| (n >>> 6), 128 ||| (n &&& 63)]
  else if n < 65536 then
    [224 ||| (n >>> 12), 128 ||| ((n >>> 6) &&& 63), 128 ||| (n &&& 63)]
  else
    [240 ||| (n >>> 18), 128 ||| ((n >>> 12) &&& 63), 128 ||| ((n >>> 6) &&& 63), 128 ||| (n &&& 63)]

/-- UTF-8 bytes of a string. -/
def strBytes (s : String) : List Nat := (s.data.map utf8Char).flatten

/-- First SHA-256 digest word of a string. -/
def hashFirstWord (s : String) : Nat := sha256FirstWord (strBytes s)

/-! ### Data model (`minimiser.py`)

A row of `df_patients`: the minimisation-variable columns, the `arm`
column and the `active` column, indexed by the patient id.  Python
dicts are insertion ordered, so `characteristics` and
`minimisation_vars` are association lists. -/

structure Patient where
  id : String
  characteristics : List (String × String)
  arm : String
  active : Bool
deriving DecidableEq, Repr

/-- The `Minimiser` instance state. -/
structure Minimiser where
  trial_id : String
  minimisation_vars : List (String × List String)
  arms : List String
  minimisation_weight : ℚ
  seed : String
  strict_mode : Bool
  df_patients : List Patient
deriving DecidableEq, Repr

/-- Error kinds raised by the core (the spec's §7 taxonomy; the Python
code raises `ValueError` / `AttributeError` with matching messages). -/
inductive AllocError where
  | schemaMismatch (got needed : List String)
  | invalidValue (varName val : String)
  | invalidArm (arm : String)
  | duplicateEntity (id : String)
  | notFound (id : String)
  | operationNotPermitted
  | indexOutOfRange (idx : Nat)
  | attributeError (msg : String)
deriving DecidableEq, Repr

/-- Lexicographic comparison of char lists by code point, the order
Python uses on strings. -/
def listCharLe : List Char → List Char → Bool
  | [], _ => true
  | _ :: _, [] => false
  | a :: as, b :: bs =>
    if a.toNat < b.toNat then true
    else if b.toNat < a.toNat then false
    else listCharLe as bs

/-- String comparison by code points. -/
def strLe (a b : String) : Bool := listCharLe a.data b.data

/-- Insert into a sorted list of strings. -/
def insertSorted (a : String) : List String → List String
  | [] => [a]
  | b :: l => if strLe a b then a :: b :: l else b :: insertSorted a l

/-- Python's `sorted` on a list of strings (ascending lexicographic by
code point), as a structurally recursive insertion sort. -/
def sortStr : List String → List String
  | [] => []
  | a :: l => insertSorted a (sortStr l)

instance {ε α : Type} [DecidableEq ε] [DecidableEq α] : DecidableEq (Except ε α) := fun a b =>
  match a, b with
  | .error e1, .error e2 =>
      if h : e1 = e2 then .isTrue (by rw [h]) else .isFalse (fun hc => h (by cases hc; rfl))
  | .error _, .ok _ => .isFalse (fun hc => Except.noConfusion hc)
  | .ok _, .error _ => .isFalse (fun hc => Except.noConfusion hc)
  | .ok a1, .ok a2 =>
      if h : a1 = a2 then .isTrue (by rw [h]) else .isFalse (fun hc => h (by cases hc; rfl))

namespace Minimiser

/-- `get_n_patients`: `self.df_patients.shape[0]`. -/
def get_n_patients (m : Minimiser) : Nat := m.df_patients.length

/-- `get_active_patients`: 0 for an empty frame, else the number of
rows with `active == True`. -/
def get_active_patients (m : Minimiser) : Nat :=
  if m.df_patients.isEmpty then 0
  else (m.df_patients.filter (fun p => p.active == true)).length

/-- `check_valid_characteristics`: compare the sorted key lists, then
check each value against its variable domain, in sorted key order. -/
def check_valid_characteristics (m : Minimiser) (characteristics : List (String × String)) :
    Except AllocError Unit :=
  let pt_chars := sortStr (characteristics.map Prod.fst)
  let needed_chars := sortStr (m.minimisation_vars.map Prod.fst)
  if pt_chars ≠ needed_chars then .error (.schemaMismatch pt_chars needed_chars)
  else
    match pt_chars.find? (fun c =>
        !(((m.minimisation_vars.lookup c).getD []).contains ((characteristics.lookup c).getD ""))) with
    | some c => .error (.invalidValue c ((characteristics.lookup c).getD ""))
    | none => .ok ()

/-- `deterministic_random`: hash `f"{patient_id}_{self.seed}"` and
divide the first digest word by `0xffffffff`.  Modelled exactly, over
`ℚ` (see the header note on floats). -/
def deterministic_random (m : Minimiser) (patient_id : String) : ℚ :=
  (hashFirstWord (patient_id ++ "_" ++ m.seed) : ℚ) / 4294967295

/-- `arm_index = int(rand * len(self.arms)); arm = self.arms[arm_index]`,
with the Python `IndexError` made explicit. -/
def indexed_arm (m : Minimiser) (rand : ℚ) : Except AllocError String :=
  let arm_index := ⌊rand * m.arms.length⌋₊
  match m.arms.get? arm_index with
  | some a => .ok a
  | none => .error (.indexOutOfRange arm_index)

/-- The number of active patients on `arm` whose column `char_name`
holds `char_val` (the filtered `shape[0]` in `get_minimised_arm`). -/
def match_count (m : Minimiser) (arm char_name char_val : String) : Nat :=
  (m.df_patients.filter (fun p =>
    p.active && p.arm == arm && (p.characteristics.lookup char_name == some char_val))).length

/-- One arm's minimisation score: the sum over the candidate's
characteristics of the matching active-patient counts. -/
def arm_score (m : Minimiser) (characteristics : List (String × String)) (arm : String) : Nat :=
  (characteristics.map (fun cv => match_count m arm cv.1 cv.2)).sum

/-- The `arm_totals` dict, in configured arm order. -/
def arm_totals (m : Minimiser) (characteristics : List (String × String)) :
    List (String × Nat) :=
  m.arms.map (fun a => (a, arm_score m characteristics a))

/-- Python's `min(items, key=...)`: left fold keeping the earliest
element with the least key. -/
def pyMinBy {α : Type} (f : α → Nat) (x : α) (xs : List α) : α :=
  xs.foldl (fun b y => if f y < f b then y else b) x

/-- Python's `max(items, key=...)`: left fold keeping the earliest
element with the greatest key. -/
def pyMaxBy {α : Type} (f : α → Nat) (x : α) (xs : List α) : α :=
  xs.foldl (fun b y => if f y > f b then y else b) x

/-- The branch condition of line 126, `min_val == max_val`. -/
def tie_condition (m : Minimiser) (characteristics : List (String × String)) : Bool :=
  match arm_totals m characteristics with
  | [] => false
  | x :: xs => (pyMinBy Prod.snd x xs).2 == (pyMaxBy Prod.snd x xs).2

/-- Python's `repr` of a list of (quote-free) strings, as interpolated
by `f"minimisation_tie_{list(characteristics.values())}"`. -/
def pyListRepr (vs : List String) : String :=
  "[" ++ String.intercalate ", " (vs.map (fun v => "\x27" ++ v ++ "\x27")) ++ "]"

/-- The key string hashed by the tie-break. -/
def tie_key (characteristics : List (String × String)) : String :=
  "minimisation_tie_" ++ pyListRepr (characteristics.map Prod.snd)

/-- `get_minimised_arm`: score every arm, take the Python min and max,
and either tie-break by hash (all arms equal) or return the min arm.
The in-loop `assert` on characteristic values is the leading check;
`min` of an empty arm tuple would raise `ValueError`. -/
def get_minimised_arm (m : Minimiser) (characteristics : List (String × String)) :
    Except AllocError String :=
  match characteristics.find? (fun cv => !(((m.minimisation_vars.lookup cv.1).getD []).contains cv.2)) with
  | some cv => .error (.invalidValue cv.1 cv.2)
  | none =>
    match arm_totals m characteristics with
    | [] => .error (.attributeError "min() arg is an empty sequence")
    | x :: xs =>
      if (pyMinBy Prod.snd x xs).2 == (pyMaxBy Prod.snd x xs).2 then
        indexed_arm m (deterministic_random m (tie_key characteristics))
      else .ok (pyMinBy Prod.snd x xs).1

/-- `_add_patient_to_arm`: duplicate-id check, then append the new row
(`active = True`). -/
def _add_patient_to_arm (m : Minimiser) (id : String)
    (characteristics : List (String × String)) (arm : String) :
    Except AllocError Minimiser :=
  if (m.df_patients.map Patient.id).contains id then .error (.duplicateEntity id)
  else .ok { m with df_patients := m.df_patients ++ [⟨id, characteristics, arm, true⟩] }

/-- The arm decision of `randomise_patient` (its lines 85-105): honor a
manual arm in non-strict mode, otherwise first-patient uniform draw,
otherwise minimise or uniform-draw according to the weight. -/
def choose_arm (m : Minimiser) (id : String)
    (characteristics : List (String × String)) (manual_arm : Option String) :
    Except AllocError String :=
  if !m.strict_mode && manual_arm.isSome then
    match manual_arm with
    | some a => if m.arms.contains a then .ok a else .error (.invalidArm a)
    | none => .error (.attributeError "unreachable")
  else if m.get_n_patients == 0 then
    indexed_arm m (deterministic_random m id)
  else if deterministic_random m (id ++ "_allocation") ≤ m.minimisation_weight then
    get_minimised_arm m characteristics
  else
    indexed_arm m (deterministic_random m id)

/-- `randomise_patient`.  Returns the assigned arm together with the
updated state; a raised error produces no state because the sole
mutation of `df_patients` is the final `pd.concat` in
`_add_patient_to_arm`. -/
def randomise_patient (m : Minimiser) (id : String)
    (characteristics : List (String × String)) (manual_arm : Option String) :
    Except AllocError (String × Minimiser) :=
  match check_valid_characteristics m characteristics with
  | .error e => .error e
  | .ok () =>
    match choose_arm m id characteristics manual_arm with
    | .error e => .error e
    | .ok arm =>
      match _add_patient_to_arm m id characteristics arm with
      | .error e => .error e
      | .ok m2 => .ok (arm, m2)

/-- The caller's view of the state after `randomise_patient`: a raised
error escapes before `df_patients` is ever assigned, leaving the
object as it was. -/
def run_randomise (m : Minimiser) (id : String)
    (characteristics : List (String × String)) (manual_arm : Option String) : Minimiser :=
  match randomise_patient m id characteristics manual_arm with
  | .ok (_, m2) => m2
  | .error _ => m

/-- The assigned arm alone. -/
def alloc_arm (m : Minimiser) (id : String)
    (characteristics : List (String × String)) (manual_arm : Option String) :
    Except AllocError String :=
  (randomise_patient m id characteristics manual_arm).map Prod.fst

/-- `deactivate_patient`: `NotFound` check, then clear the `active`
cell of the row(s) with that id. -/
def deactivate_patient (m : Minimiser) (patient_id : String) : Except AllocError Minimiser :=
  if (m.df_patients.map Patient.id).contains patient_id then
    .ok { m with df_patients :=
      m.df_patients.map (fun p => if p.id = patient_id then { p with active := false } else p) }
  else .error (.notFound patient_id)

/-- `reactivate_patient`: `NotFound` check, then set the `active` cell. -/
def reactivate_patient (m : Minimiser) (patient_id : String) : Except AllocError Minimiser :=
  if (m.df_patients.map Patient.id).contains patient_id then
    .ok { m with df_patients :=
      m.df_patients.map (fun p => if p.id = patient_id then { p with active := true } else p) }
  else .error (.notFound patient_id)

end Minimiser

/-! ### `DataManager.add_patient` (`data_manager.py`, lines 138-149)

The stored-trial round trip is identity on the `Minimiser` state, so
the operation is modelled on the loaded instance.  Note the guard is
`if manual_arm:` — Python truthiness, so an empty string counts as
absent — and that the manual branch calls `minimiser.add_patient`,
a method `Minimiser` does not define, hence an `AttributeError`. -/

/-- Python truthiness of the optional `manual_arm` string. -/
def truthyArm : Option String → Bool
  | none => false
  | some s => s != ""

/-- `DataManager.add_patient`. -/
def add_patient (m : Minimiser) (patient_id : String)
    (characteristics : List (String × String)) (manual_arm : Option String) :
    Except AllocError (String × Minimiser) :=
  if truthyArm manual_arm then
    if m.strict_mode then .error .operationNotPermitted
    else .error (.attributeError "Minimiser object has no attribute add_patient")
  else Minimiser.randomise_patient m patient_id characteristics none

/-- The stored trial state after `add_patient`: unchanged when the call
raises (the raise happens before any state is written back). -/
def run_add_patient (m : Minimiser) (patient_id : String)
    (characteristics : List (String × String)) (manual_arm : Option String) : Minimiser :=
  match add_patient m patient_id characteristics manual_arm with
  | .ok (_, m2) => m2
  | .error _ => m

/-! ### Allocation sequences (replayability, C2) -/

/-- Allocate a list of `(id, characteristics)` pairs in order, starting
from `m`; a failed allocation leaves the registry unchanged. -/
def allocate_sequence (m : Minimiser) :
    List (String × List (String × String)) → List (Except AllocError String)
  | [] => []
  | (id, chars) :: rest =>
    match Minimiser.randomise_patient m id chars none with
    | .ok (arm, m2) => .ok arm :: allocate_sequence m2 rest
    | .error e => .error e :: allocate_sequence m rest

/-! ### Balance table (`app.py`, `display_minimisation_table`, lines 628-707)

`characteristics_by_arm()` groups the active rows by `arm` and
aggregates every remaining column with `Counter`, so each per-variable
"table" has one row per arm value present among active patients and no
synthetic Total row.  Line 639 evaluates `if not tables:` on that
`DataFrame`, and `pandas` unconditionally raises
`ValueError: The truth value of a DataFrame is ambiguous` for any
DataFrame, so the function raises whenever the registry is non-empty.
Lines 648-707 (the Skew/Imbalance augmentation) are modelled below so
that their arithmetic can still be examined. -/

/-- The row count of each per-variable table produced by
`characteristics_by_arm()`: the number of distinct arms among active
patients. -/
def table_rows (m : Minimiser) : Nat :=
  (((m.df_patients.filter (fun p => p.active)).map Patient.arm).dedup).length

/-- Line 648's guard: with at most this many rows the code prints
"Not enough data" and skips the augmentation. -/
def augmentation_skipped (m : Minimiser) : Bool :=
  m.arms.length ≤ 1 || table_rows m ≤ 2

/-- Python's `round`: round half to even (banker's rounding). -/
def pyRound (q : ℚ) : ℤ :=
  if q - ⌊q⌋ < 1/2 then ⌊q⌋
  else if q - ⌊q⌋ > 1/2 then ⌊q⌋ + 1
  else if ⌊q⌋ % 2 = 0 then ⌊q⌋ else ⌊q⌋ + 1

/-- Lines 674-677 and 694-697: the augmentation cell
`f"{difference} ({pct}%)"` for a row or column of counts. -/
def augmentation_cell (vals : List Nat) : String :=
  match vals with
  | [] => ""
  | v :: vs =>
    let mx := vs.foldl max v
    let mn := vs.foldl min v
    let difference := mx - mn
    let s := (v :: vs).sum
    let pct : ℤ := if s > 0 then pyRound ((difference : ℚ) / (s : ℚ) * 100) else 0
    toString difference ++ " (" ++ toString pct ++ "%)"

/-- `display_minimisation_table`: returns informational lines, or the
raised error.  For a non-empty registry execution reaches line 639 and
raises on `DataFrame` truthiness before any table is rendered. -/
def display_minimisation_table (m : Minimiser) : Except String (List String) :=
  if m.df_patients.isEmpty then
    .ok ["No patients in this trial yet. Tables will appear after adding patients."]
  else .error "The truth value of a DataFrame is ambiguous."

/-! ### Spec-side definitions (for refinement-style claims) -/

/-- Modelled from the spec (§4.1): `sample(key, seed)`, the
deterministic random source, as `Minimiser.deterministic_random`
computes it for key `key` under seed `seed`. -/
def sample (key seed : String) : ℚ :=
  (hashFirstWord (key ++ "_" ++ seed) : ℚ) / 4294967295

/-- The uniform-chance arm index `int(sample(key, seed) * n)` used in
first-patient allocation, chance allocation and the tie-break. -/
def chance_index (key seed : String) (n : Nat) : Nat :=
  ⌊sample key seed * n⌋₊

/-- Follows the spec's words for claim C7: the least minimisation
score over the arms. -/
def spec_min_score (m : Minimiser) (characteristics : List (String × String)) : Nat :=
  match m.arm_totals characteristics with
  | [] => 0
  | x :: xs => xs.foldl (fun b y => min b y.2) x.2

/-- Follows the spec's words for claim C7: the greatest minimisation
score over the arms. -/
def spec_max_score (m : Minimiser) (characteristics : List (String × String)) : Nat :=
  match m.arm_totals characteristics with
  | [] => 0
  | x :: xs => xs.foldl (fun b y => max b y.2) x.2

/-- Follows the spec's words for claim C7: the first arm, in configured
arm order, whose score equals the minimum. -/
def spec_first_min_arm (m : Minimiser) (characteristics : List (String × String)) :
    Option String :=
  ((m.arm_totals characteristics).find? (fun p => p.2 == spec_min_score m characteristics)).map
    Prod.fst

/-! ### Concrete trial instances used as test inputs -/

/-- The two-arm, two-variable configuration of the repository's own
tests, with an empty registry. -/
def trialBase : Minimiser :=
  { trial_id := "test_trial"
    minimisation_vars := [("gender", ["male", "female"]), ("age_group", ["<=50", ">50"])]
    arms := ["A", "B"]
    minimisation_weight := mkRat 8 10
    seed := "test_seed"
    strict_mode := true
    df_patients := [] }

/-- A patient row for the two-variable configuration. -/
def mkPatient (id g a arm : String) (act : Bool) : Patient :=
  ⟨id, [("gender", g), ("age_group", a)], arm, act⟩

/-- Full-weight trial with three active male patients, all on arm A. -/
def trialC1 : Minimiser :=
  { trialBase with minimisation_weight := 1, df_patients :=
      [mkPatient "p1" "male" "<=50" "A" true,
       mkPatient "p2" "male" ">50" "A" true,
       mkPatient "p3" "male" "<=50" "A" true] }

/-- Full-weight trial holding one active patient, male and over 50, on
arm A. -/
def trialC6 : Minimiser :=
  { trialBase with minimisation_weight := 1, df_patients :=
      [mkPatient "p1" "male" ">50" "A" true] }

/-- Three-arm full-weight trial with one active patient on arm C. -/
def trialC7 : Minimiser :=
  { trialBase with arms := ["A", "B", "C"], minimisation_weight := 1, df_patients :=
      [mkPatient "p1" "male" "<=50" "C" true] }

/-- One enrolled patient, for the duplicate-id claim. -/
def trialC8 : Minimiser :=
  { trialBase with df_patients := [mkPatient "p1" "male" "<=50" "A" true] }

/-- Two enrolled patients on different arms, for the
deactivate/reactivate claim. -/
def trialC9 : Minimiser :=
  { trialBase with df_patients :=
      [mkPatient "p1" "male" "<=50" "A" true,
       mkPatient "p2" "female" ">50" "B" true] }

/-- The single-variable trial of the balance-table claim: active counts
arm A male=2 female=1, arm B male=1 female=2. -/
def trialC5 : Minimiser :=
  { trialBase with minimisation_vars := [("gender", ["male", "female"])], df_patients :=
      [⟨"p1", [("gender", "male")], "A", true⟩,
       ⟨"p2", [("gender", "male")], "A", true⟩,
       ⟨"p3", [("gender", "female")], "A", true⟩,
       ⟨"p4", [("gender", "male")], "B", true⟩,
       ⟨"p5", [("gender", "female")], "B", true⟩,
       ⟨"p6", [("gender", "female")], "B", true⟩] }

/-- A second, identically configured trial under a different id, for
the replayability claim. -/
def trialBase2 : Minimiser := { trialBase with trial_id := "another_trial" }

/-- Single-variable empty trial under seed "x": enrolling the patient
id "2753018686" exercises the all-f digest prefix. -/
def trialC10 : Minimiser :=
  { trialBase with minimisation_vars := [("gender", ["male", "female"])], seed := "x" }

/-! ### Basic bounds on the hash and the derived randomness -/

theorem stepBlock_fst_lt (H : W8) (b : List Nat) : (stepBlock H b).1 < 4294967296 := by
  obtain ⟨a, b1, c, d, e, f, g, h⟩ := H
  rcases hr : (List.zip K256 (schedule b)).foldl round1 (a, b1, c, d, e, f, g, h) with
    ⟨a2, b2, c2, d2, e2, f2, g2, h2⟩
  simp only [stepBlock, hr]
  exact Nat.mod_lt _ (by norm_num)

theorem foldl_stepBlock_fst_lt (bs : List (List Nat)) (H : W8) (hH : H.1 < 4294967296) :
    (bs.foldl stepBlock H).1 < 4294967296 := by
  induction bs generalizing H with
  | nil => exact hH
  | cons b bs ih => exact ih _ (stepBlock_fst_lt H b)

theorem hashFirstWord_lt (s : String) : hashFirstWord s < 4294967296 :=
  foldl_stepBlock_fst_lt _ IV (by norm_num [IV])

theorem sample_nonneg (key seed : String) : 0 ≤ sample key seed := by
  unfold sample; positivity

theorem sample_le_one (key seed : String) : sample key seed ≤ 1 := by
  unfold sample
  rw [div_le_one (by norm_num)]
  exact_mod_cast Nat.le_of_lt_succ (hashFirstWord_lt (key ++ "_" ++ seed))

theorem deterministic_random_eq_sample (m : Minimiser) (pid : String) :
    m.deterministic_random pid = sample pid m.seed := rfl

/-- The exact value of the truncated product `int(rand * n)`. -/
theorem nfloor_hash_mul (h n : ℕ) :
    ⌊(h : ℚ) / 4294967295 * n⌋₊ = h * n / 4294967295 := by
  have hc : (4294967295 : ℚ) = ((4294967295 : ℕ) : ℚ) := by norm_num
  rw [div_mul_eq_mul_div, ← Nat.cast_mul, hc, Nat.floor_div_nat, Nat.floor_natCast]

theorem chance_index_eq (key seed : String) (n : ℕ) :
    chance_index key seed n = hashFirstWord (key ++ "_" ++ seed) * n / 4294967295 := by
  unfold chance_index sample
  exact nfloor_hash_mul _ n

/-- Evaluation form of the indexed lookup: the truncated product is
the integer `h * n / 0xffffffff`. -/
theorem indexed_arm_eval (m : Minimiser) (key : String) :
    m.indexed_arm (m.deterministic_random key) =
      (match m.arms.get? (hashFirstWord (key ++ "_" ++ m.seed) * m.arms.length / 4294967295) with
       | some a => .ok a
       | none => .error (.indexOutOfRange
           (hashFirstWord (key ++ "_" ++ m.seed) * m.arms.length / 4294967295))) := by
  unfold Minimiser.indexed_arm Minimiser.deterministic_random
  rw [nfloor_hash_mul]

/-- When the first digest word is not `0xffffffff`, the arm index is in
range and the indexed lookup succeeds. -/
theorem indexed_arm_ok (m : Minimiser) (key : String) (hne : m.arms ≠ [])
    (hh : hashFirstWord (key ++ "_" ++ m.seed) ≠ 4294967295) :
    ∃ a, m.indexed_arm (m.deterministic_random key) = .ok a ∧ a ∈ m.arms := by
  have hlt : hashFirstWord (key ++ "_" ++ m.seed) < 4294967295 :=
    lt_of_le_of_ne (Nat.le_of_lt_succ (hashFirstWord_lt _)) hh
  have hn : 0 < m.arms.length := List.length_pos.mpr hne
  have hidx : ⌊m.deterministic_random key * m.arms.length⌋₊ < m.arms.length := by
    rw [Minimiser.deterministic_random, nfloor_hash_mul]
    rw [Nat.div_lt_iff_lt_mul (by norm_num), Nat.mul_comm m.arms.length 4294967295]
    exact mul_lt_mul_of_pos_right hlt hn
  rw [Minimiser.indexed_arm]
  rw [List.get?_eq_get hidx]
  exact ⟨_, rfl, List.get_mem _ _ _⟩

/-! ### Behaviour of Python `min`/`max` with a key function -/

open Minimiser

theorem foldl_choice_mem {α : Type} (step : α → α → α)
    (hstep : ∀ b y, step b y = b ∨ step b y = y) (x : α) (xs : List α) :
    xs.foldl step x = x ∨ xs.foldl step x ∈ xs := by
  induction xs generalizing x with
  | nil => left; rfl
  | cons y ys ih =>
    simp only [List.foldl_cons]
    rcases ih (step x y) with h | h
    · rcases hstep x y with h2 | h2
      · left; rw [h, h2]
      · right; rw [h, h2]; exact List.mem_cons_self _ _
    · right; exact List.mem_cons_of_mem _ h

theorem pyMinBy_mem {α : Type} (f : α → Nat) (x : α) (xs : List α) :
    pyMinBy f x xs ∈ x :: xs := by
  rcases foldl_choice_mem (fun b y => if f y < f b then y else b)
      (fun b y => by by_cases h : f y < f b <;> simp [h]) x xs with h | h
  · rw [pyMinBy, h]; exact List.mem_cons_self _ _
  · exact List.mem_cons_of_mem _ h

theorem pyMaxBy_mem {α : Type} (f : α → Nat) (x : α) (xs : List α) :
    pyMaxBy f x xs ∈ x :: xs := by
  rcases foldl_choice_mem (fun b y => if f y > f b then y else b)
      (fun b y => by by_cases h : f y > f b <;> simp [h]) x xs with h | h
  · rw [pyMaxBy, h]; exact List.mem_cons_self _ _
  · exact List.mem_cons_of_mem _ h

theorem pyMinBy_val {α : Type} (f : α → Nat) (x : α) (xs : List α) :
    f (pyMinBy f x xs) = xs.foldl (fun b y => min b (f y)) (f x) := by
  induction xs generalizing x with
  | nil => rfl
  | cons y ys ih =>
    simp only [pyMinBy, List.foldl_cons] at ih ⊢
    rw [ih]
    have hx : f (if f y < f x then y else x) = min (f x) (f y) := by
      by_cases h : f y < f x <;> simp [h] <;> omega
    rw [hx]

theorem pyMaxBy_val {α : Type} (f : α → Nat) (x : α) (xs : List α) :
    f (pyMaxBy f x xs) = xs.foldl (fun b y => max b (f y)) (f x) := by
  induction xs generalizing x with
  | nil => rfl
  | cons y ys ih =>
    simp only [pyMaxBy, List.foldl_cons] at ih ⊢
    rw [ih]
    have hx : f (if f y > f x then y else x) = max (f x) (f y) := by
      by_cases h : f y > f x <;> simp [h] <;> omega
    rw [hx]

theorem foldl_min_le_init {α : Type} (f : α → Nat) (a : Nat) (xs : List α) :
    xs.foldl (fun b y => min b (f y)) a ≤ a := by
  induction xs generalizing a with
  | nil => exact le_refl a
  | cons y ys ih => exact le_trans (ih _) (Nat.min_le_left _ _)

theorem foldl_min_le_mem {α : Type} (f : α → Nat) (a : Nat) (xs : List α)
    (y : α) (hy : y ∈ xs) : xs.foldl (fun b y => min b (f y)) a ≤ f y := by
  induction xs generalizing a with
  | nil => cases hy
  | cons z zs ih =>
    rcases List.mem_cons.mp hy with h | h
    · subst h
      exact le_trans (foldl_min_le_init f _ zs) (Nat.min_le_right _ _)
    · exact ih _ h

/-- The Python `min` fold returns the first element, in list order,
whose key equals the least key. -/
theorem pyMinBy_eq_find {α : Type} (f : α → Nat) (x : α) (xs : List α) :
    (x :: xs).find? (fun y => f y == xs.foldl (fun b y => min b (f y)) (f x)) =
      some (pyMinBy f x xs) := by
  induction xs generalizing x with
  | nil => simp [pyMinBy, List.find?]
  | cons y ys ih =>
    have hfold : (y :: ys).foldl (fun b z => min b (f z)) (f x) =
        ys.foldl (fun b z => min b (f z)) (f (if f y < f x then y else x)) := by
      have hx : f (if f y < f x then y else x) = min (f x) (f y) := by
        by_cases h : f y < f x <;> simp [h] <;> omega
      rw [hx]; rfl
    have hpy : pyMinBy f x (y :: ys) = pyMinBy f (if f y < f x then y else x) ys := rfl
    rw [hfold, hpy]
    by_cases hc : f y < f x
    · simp only [if_pos hc] at *
      have hV : ys.foldl (fun b z => min b (f z)) (f y) ≤ f y := foldl_min_le_init f _ ys
      have hxb : (f x == ys.foldl (fun b z => min b (f z)) (f y)) = false := by
        simp only [beq_eq_false_iff_ne, ne_eq]
        omega
      simp only [List.find?]
      rw [hxb]
      exact ih y
    · simp only [if_neg hc] at *
      push_neg at hc
      by_cases hxV : (f x == ys.foldl (fun b z => min b (f z)) (f x)) = true
      · simp only [List.find?]
        rw [hxV]
        have := ih x
        simp only [List.find?] at this
        rw [hxV] at this
        exact this
      · have hxb : (f x == ys.foldl (fun b z => min b (f z)) (f x)) = false := by
          exact Bool.not_eq_true _ ▸ (by simpa using hxV)
        have hV : ys.foldl (fun b z => min b (f z)) (f x) ≤ f x := foldl_min_le_init f _ ys
        have hyb : (f y == ys.foldl (fun b z => min b (f z)) (f x)) = false := by
          simp only [beq_eq_false_iff_ne, ne_eq]
          simp only [beq_iff_eq] at hxV
          omega
        simp only [List.find?]
        rw [hxb, hyb]
        have := ih x
        simp only [List.find?] at this
        rw [hxb] at this
        exact this

/-! ### From a passed validity check to the in-loop assertion -/

theorem lookup_of_nodup_mem (l : List (String × String)) (k v : String)
    (hnd : (l.map Prod.fst).Nodup) (hm : (k, v) ∈ l) : l.lookup k = some v := by
  induction l with
  | nil => cases hm
  | cons hd tl ih =>
    rcases List.mem_cons.mp hm with h | h
    · subst h
      simp [List.lookup]
    · have hk : k ≠ hd.1 := by
        intro hEq
        have : k ∈ tl.map Prod.fst := List.mem_map.mpr ⟨(k, v), h, rfl⟩
        rw [List.map_cons, List.nodup_cons] at hnd
        exact hnd.1 (hEq ▸ this)
      have : (k == hd.1) = false := by simp [hk]
      obtain ⟨k1, v1⟩ := hd
      simp only [List.lookup, this]
      exact ih (by rw [List.map_cons, List.nodup_cons] at hnd; exact hnd.2) h

theorem mem_insertSorted (a b : String) (l : List String) :
    b ∈ insertSorted a l ↔ b = a ∨ b ∈ l := by
  induction l with
  | nil => simp [insertSorted]
  | cons c l ih =>
    by_cases h : strLe a c
    · simp [insertSorted, h]
    · simp only [insertSorted, if_neg h, List.mem_cons, ih]
      tauto

theorem mem_sortStr (a : String) (l : List String) : a ∈ sortStr l ↔ a ∈ l := by
  induction l with
  | nil => simp [sortStr]
  | cons b l ih => simp [sortStr, mem_insertSorted, ih]

theorem check_ok_pairs_valid (m : Minimiser) (chars : List (String × String))
    (hnd : (chars.map Prod.fst).Nodup)
    (hok : m.check_valid_characteristics chars = .ok ()) :
    ∀ p ∈ chars, ((m.minimisation_vars.lookup p.1).getD []).contains p.2 = true := by
  intro p hp
  unfold Minimiser.check_valid_characteristics at hok
  by_cases hkeys : sortStr (chars.map Prod.fst) ≠ sortStr (m.minimisation_vars.map Prod.fst)
  · simp only [if_pos hkeys] at hok
    cases hok
  · simp only [if_neg hkeys] at hok
    cases hfind : sortStr (chars.map Prod.fst) |>.find? (fun c =>
        !(((m.minimisation_vars.lookup c).getD []).contains ((chars.lookup c).getD ""))) with
    | some c => rw [hfind] at hok; cases hok
    | none =>
      rw [hfind] at hok
      have hmem : p.1 ∈ sortStr (chars.map Prod.fst) :=
        (mem_sortStr _ _).mpr (List.mem_map.mpr ⟨p, hp, rfl⟩)
      have := List.find?_eq_none.mp hfind p.1 hmem
      have hlook : chars.lookup p.1 = some p.2 := lookup_of_nodup_mem chars p.1 p.2 hnd hp
      simpa [hlook] using this

/-- With every candidate pair in its variable's domain, the in-loop
`assert` of `get_minimised_arm` finds nothing to fail on. -/
theorem find_invalid_none (m : Minimiser) (chars : List (String × String))
    (hval : ∀ p ∈ chars, ((m.minimisation_vars.lookup p.1).getD []).contains p.2 = true) :
    chars.find? (fun cv =>
      !(((m.minimisation_vars.lookup cv.1).getD []).contains cv.2)) = none :=
  List.find?_eq_none.mpr (fun x hx => by rw [hval x hx]; simp)

/-- The code's tie test agrees with the spec-side min/max scores. -/
theorem tie_condition_eq_spec (m : Minimiser) (chars : List (String × String))
    (x : String × Nat) (xs : List (String × Nat)) (h : m.arm_totals chars = x :: xs) :
    m.tie_condition chars = (spec_min_score m chars == spec_max_score m chars) := by
  unfold Minimiser.tie_condition spec_min_score spec_max_score
  rw [h]
  show ((pyMinBy Prod.snd x xs).2 == (pyMaxBy Prod.snd x xs).2) =
    ((xs.foldl (fun b y => min b y.2) x.2) == (xs.foldl (fun b y => max b y.2) x.2))
  rw [pyMinBy_val Prod.snd x xs, pyMaxBy_val Prod.snd x xs]

/-! ### Claim C3: range of the deterministic random source -/

/-- Claim C3, amended: for every key string and seed string,
`sample(key, seed)` lies in the closed interval [0,1]; the claimed
strict bound `< 1` fails exactly when the first eight hex digits of
the digest are `ffffffff`, because the code divides by `0xffffffff`,
the greatest attainable prefix value, rather than by `0x100000000`. -/
theorem sample_mem_unit_closed (key seed : String) :
    0 ≤ sample key seed ∧ sample key seed ≤ 1 :=
  ⟨sample_nonneg key seed, sample_le_one key seed⟩

/-! ### Claim C10: range of the uniform-chance arm index -/

/-- Claim C10, amended: the arm index `int(sample(id, seed) * n)` is at
most `n` and is strictly less than `n` (so `arms[arm_index]` succeeds)
whenever the first digest word of the hashed key is not `0xffffffff`;
at that value the index equals `n` and the lookup raises `IndexError`. -/
theorem chance_index_le (key seed : String) (n : Nat) (hn : 0 < n) :
    chance_index key seed n ≤ n ∧
      (hashFirstWord (key ++ "_" ++ seed) ≠ 4294967295 → chance_index key seed n < n) := by
  rw [chance_index_eq]
  have h1 : hashFirstWord (key ++ "_" ++ seed) ≤ 4294967295 :=
    Nat.le_of_lt_succ (hashFirstWord_lt _)
  constructor
  · calc hashFirstWord (key ++ "_" ++ seed) * n / 4294967295
        ≤ 4294967295 * n / 4294967295 :=
          Nat.div_le_div_right (Nat.mul_le_mul_right n h1)
      _ = n := Nat.mul_div_cancel_left n (by norm_num)
  · intro hne
    have hlt : hashFirstWord (key ++ "_" ++ seed) < 4294967295 := lt_of_le_of_ne h1 hne
    rw [Nat.div_lt_iff_lt_mul (by norm_num), Nat.mul_comm n 4294967295]
    exact mul_lt_mul_of_pos_right hlt hn

/-- Witness for the amended C10 at a concrete input. -/
theorem chance_index_le_witness :
    0 < 2 ∧ (chance_index "a" "b" 2 ≤ 2 ∧
      (hashFirstWord ("a" ++ "_" ++ "b") ≠ 4294967295 → chance_index "a" "b" 2 < 2)) :=
  ⟨by decide, chance_index_le "a" "b" 2 (by decide)⟩

/-- Claim C3, counterexample: the SHA-256 digest of `2753018686_x`
begins with the eight hex digits ffffffff, so at key "2753018686" and
seed "x" the sample equals exactly 1 and the claimed interval [0,1)
is violated. -/
theorem sample_eq_one_at_magic_key :
    sample "2753018686" "x" = 1 ∧ ¬ (sample "2753018686" "x" < 1) := by
  have h1 : sample "2753018686" "x" = 1 := by
    unfold sample
    rw [show hashFirstWord ("2753018686" ++ "_" ++ "x") = 4294967295 from by decide]
    norm_num
  exact ⟨h1, by rw [h1]; exact lt_irrefl 1⟩

/-- Claim C10, counterexample: with patient id "2753018686", seed "x"
and two arms, the uniform-chance index equals 2, and enrolling that
patient as the first of a trial raises `IndexError` from
`self.arms[arm_index]`. -/
theorem chance_index_out_of_range_at_magic_key :
    ¬ (chance_index "2753018686" "x" 2 < 2) ∧
      Minimiser.randomise_patient trialC10 "2753018686" [("gender", "male")] none =
        .error (.indexOutOfRange 2) := by
  constructor
  · rw [chance_index_eq,
      show hashFirstWord ("2753018686" ++ "_" ++ "x") = 4294967295 from by decide]
    norm_num
  · unfold Minimiser.randomise_patient Minimiser.choose_arm
    rw [show Minimiser.check_valid_characteristics trialC10 [("gender", "male")] = .ok ()
        from by decide,
      indexed_arm_eval]
    decide

/-! ### Claim C1: forced assignment under full weight -/

/-- Claim C1: with `minimisationWeight = 1.0` and arms A and B, when
the registry holds three active patients, all on arm A and all with
gender=male, allocating a fourth male patient whose values make arm
B's minimisation score strictly smaller than arm A's returns arm B via
the minimum-score rule; the tie-break branch is not taken. -/
theorem full_weight_fourth_male_gets_B (m : Minimiser) (id : String)
    (chars : List (String × String)) (p1 p2 p3 : Patient)
    (harms : m.arms = ["A", "B"])
    (hw : m.minimisation_weight = 1)
    (hdf : m.df_patients = [p1, p2, p3])
    (hall : ∀ p ∈ m.df_patients, p.active = true ∧ p.arm = "A" ∧
      p.characteristics.lookup "gender" = some "male")
    (hnd : (chars.map Prod.fst).Nodup)
    (hok : m.check_valid_characteristics chars = .ok ())
    (hgender : chars.lookup "gender" = some "male")
    (hscore : m.arm_score chars "B" < m.arm_score chars "A")
    (hfresh : (m.df_patients.map Patient.id).contains id = false) :
    m.alloc_arm id chars none = .ok "B" ∧ m.tie_condition chars = false := by
  have hvalid := check_ok_pairs_valid m chars hnd hok
  have hfind := find_invalid_none m chars hvalid
  have htot : m.arm_totals chars =
      [("A", m.arm_score chars "A"), ("B", m.arm_score chars "B")] := by
    unfold Minimiser.arm_totals
    rw [harms]
    rfl
  have hmin : pyMinBy Prod.snd ("A", m.arm_score chars "A")
      [("B", m.arm_score chars "B")] = ("B", m.arm_score chars "B") := by
    unfold pyMinBy
    simp only [List.foldl_cons, List.foldl_nil]
    rw [if_pos hscore]
  have hmax : pyMaxBy Prod.snd ("A", m.arm_score chars "A")
      [("B", m.arm_score chars "B")] = ("A", m.arm_score chars "A") := by
    unfold pyMaxBy
    simp only [List.foldl_cons, List.foldl_nil]
    rw [if_neg (by omega : ¬ (("B", m.arm_score chars "B").2 > ("A", m.arm_score chars "A").2))]
  have hne : (m.arm_score chars "B" == m.arm_score chars "A") = false := by
    simp only [beq_eq_false_iff_ne, ne_eq]
    omega
  have hgm : m.get_minimised_arm chars = .ok "B" := by
    unfold Minimiser.get_minimised_arm
    rw [hfind]
    simp only [htot]
    rw [hmin, hmax]
    simp only [hne]
    rfl
  have htie : m.tie_condition chars = false := by
    unfold Minimiser.tie_condition
    simp only [htot]
    rw [hmin, hmax]
    simp only [hne]
  refine ⟨?_, htie⟩
  unfold Minimiser.alloc_arm Minimiser.randomise_patient Minimiser.choose_arm
  rw [hok]
  have hn : m.get_n_patients = 3 := by rw [Minimiser.get_n_patients, hdf]; rfl
  have hle : m.deterministic_random (id ++ "_allocation") ≤ m.minimisation_weight := by
    rw [deterministic_random_eq_sample, hw]
    exact sample_le_one _ _
  simp only [hn, Option.isSome_none, Bool.and_false, Bool.false_eq_true, if_false,
    Nat.reduceBEq, if_pos hle, hgm]
  unfold Minimiser._add_patient_to_arm
  rw [hfresh]
  rfl

/-- Witness for C1 at the concrete three-male trial. -/
theorem full_weight_fourth_male_gets_B_witness :
    trialC1.alloc_arm "p4" [("gender", "male"), ("age_group", "<=50")] none = .ok "B" ∧
      trialC1.tie_condition [("gender", "male"), ("age_group", "<=50")] = false :=
  full_weight_fourth_male_gets_B trialC1 "p4" [("gender", "male"), ("age_group", "<=50")]
    (mkPatient "p1" "male" "<=50" "A" true) (mkPatient "p2" "male" ">50" "A" true)
    (mkPatient "p3" "male" "<=50" "A" true)
    rfl rfl rfl (by decide) (by decide) (by decide) (by decide) (by decide) (by decide)

/-! ### Claim C2: replayability

No component of the allocation reads `trial_id`, so two trials that
agree on every configuration field but the trial id produce the same
allocations from the same patient stream. -/

theorem randomise_retrial (tid t : String) (vars : List (String × List String))
    (arms : List String) (w : ℚ) (seed : String) (strict : Bool) (df : List Patient)
    (id : String) (chars : List (String × String)) (ma : Option String) :
    Minimiser.randomise_patient ⟨t, vars, arms, w, seed, strict, df⟩ id chars ma =
      (Minimiser.randomise_patient ⟨tid, vars, arms, w, seed, strict, df⟩ id chars ma).map
        (fun am => (am.1, { am.2 with trial_id := t })) := by
  unfold Minimiser.randomise_patient
  cases hck : Minimiser.check_valid_characteristics ⟨tid, vars, arms, w, seed, strict, df⟩
      chars with
  | error e =>
    rw [show Minimiser.check_valid_characteristics ⟨t, vars, arms, w, seed, strict, df⟩
        chars = Except.error e from hck]
    rfl
  | ok u =>
    cases u
    rw [show Minimiser.check_valid_characteristics ⟨t, vars, arms, w, seed, strict, df⟩
        chars = Except.ok () from hck]
    cases hca : Minimiser.choose_arm ⟨tid, vars, arms, w, seed, strict, df⟩ id chars ma with
    | error e =>
      rw [show Minimiser.choose_arm ⟨t, vars, arms, w, seed, strict, df⟩ id chars ma =
          Except.error e from hca]
      rfl
    | ok arm =>
      rw [show Minimiser.choose_arm ⟨t, vars, arms, w, seed, strict, df⟩ id chars ma =
          Except.ok arm from hca]
      unfold Minimiser._add_patient_to_arm
      by_cases hdup : ((df.map Patient.id).contains id : Bool)
      · simp only [hdup, if_true]
        rfl
      · simp only [Bool.not_eq_true] at hdup
        simp only [hdup, Bool.false_eq_true, if_false]
        rfl

theorem allocate_sequence_retrial (t : String)
    (ps : List (String × List (String × String))) : ∀ (m : Minimiser),
    allocate_sequence { m with trial_id := t } ps = allocate_sequence m ps := by
  induction ps with
  | nil => intro m; rfl
  | cons p rest ih =>
    intro m
    obtain ⟨tid, vars, arms, w, seed, strict, df⟩ := m
    obtain ⟨id, chars⟩ := p
    unfold allocate_sequence
    rw [show ({ Minimiser.mk tid vars arms w seed strict df with trial_id := t }) =
        Minimiser.mk t vars arms w seed strict df from rfl]
    rw [randomise_retrial tid t vars arms w seed strict df id chars none]
    cases hc : Minimiser.randomise_patient ⟨tid, vars, arms, w, seed, strict, df⟩
        id chars none with
    | error e =>
      show Except.error e :: allocate_sequence _ rest = Except.error e :: allocate_sequence _ rest
      rw [ih ⟨tid, vars, arms, w, seed, strict, df⟩]
    | ok am =>
      obtain ⟨arm, m2⟩ := am
      show Except.ok arm :: allocate_sequence ({ m2 with trial_id := t }) rest =
        Except.ok arm :: allocate_sequence m2 rest
      rw [ih m2]

/-- Claim C2: two minimisers built from the same configuration
(variables, arms, weight, seed, strict mode — the trial id is free)
and an empty registry allocate any sequence of distinct valid patients
identically, run to run. -/
theorem allocation_replayable (m1 m2 : Minimiser)
    (ps : List (String × List (String × String)))
    (hvars : m1.minimisation_vars = m2.minimisation_vars)
    (harms : m1.arms = m2.arms)
    (hw : m1.minimisation_weight = m2.minimisation_weight)
    (hseed : m1.seed = m2.seed)
    (hstrict : m1.strict_mode = m2.strict_mode)
    (h1 : m1.df_patients = []) (h2 : m2.df_patients = [])
    (hdistinct : (ps.map Prod.fst).Nodup)
    (hvalid : ∀ p ∈ ps, m1.check_valid_characteristics p.2 = .ok ()) :
    allocate_sequence m1 ps = allocate_sequence m2 ps := by
  obtain ⟨t1, vars1, arms1, w1, seed1, strict1, df1⟩ := m1
  obtain ⟨t2, vars2, arms2, w2, seed2, strict2, df2⟩ := m2
  dsimp only at hvars harms hw hseed hstrict h1 h2
  subst hvars harms hw hseed hstrict h1 h2
  have := allocate_sequence_retrial t1 ps ⟨t2, vars1, arms1, w1, seed1, strict1, []⟩
  rw [show ({ Minimiser.mk t2 vars1 arms1 w1 seed1 strict1 [] with trial_id := t1 }) =
      Minimiser.mk t1 vars1 arms1 w1 seed1 strict1 [] from rfl] at this
  exact this

/-- Witness for C2: the two identically configured trials under
different ids allocate a two-patient stream identically. -/
theorem allocation_replayable_witness :
    allocate_sequence trialBase
        [("p1", [("gender", "male"), ("age_group", "<=50")]),
         ("p2", [("gender", "female"), ("age_group", ">50")])] =
      allocate_sequence trialBase2
        [("p1", [("gender", "male"), ("age_group", "<=50")]),
         ("p2", [("gender", "female"), ("age_group", ">50")])] :=
  allocation_replayable trialBase trialBase2 _
    rfl rfl rfl rfl rfl rfl rfl (by decide) (by decide)

/-! ### Claim C4: manual arm under strict mode -/

/-- Claim C4, counterexample: supplying the empty string as `manualArm`
to a strict-mode trial is not rejected — Python's `if manual_arm:` is a
truthiness test — and the patient is enrolled algorithmically (to arm
B here), so the registry grows. -/
theorem add_patient_manual_empty_not_rejected :
    (add_patient trialBase "p1" [("gender", "male"), ("age_group", "<=50")]
        (some "")).map Prod.fst = .ok "B" ∧
      (run_add_patient trialBase "p1" [("gender", "male"), ("age_group", "<=50")]
        (some "")).get_n_patients = 1 := by
  have key : Minimiser.randomise_patient trialBase "p1"
      [("gender", "male"), ("age_group", "<=50")] none = .ok ("B",
        { trialBase with df_patients :=
            [⟨"p1", [("gender", "male"), ("age_group", "<=50")], "B", true⟩] }) := by
    unfold Minimiser.randomise_patient Minimiser.choose_arm
    rw [show Minimiser.check_valid_characteristics trialBase
        [("gender", "male"), ("age_group", "<=50")] = .ok () from by decide,
      indexed_arm_eval]
    decide
  have key2 : add_patient trialBase "p1" [("gender", "male"), ("age_group", "<=50")]
      (some "") = .ok ("B",
        { trialBase with df_patients :=
            [⟨"p1", [("gender", "male"), ("age_group", "<=50")], "B", true⟩] }) := by
    unfold add_patient
    rw [show truthyArm (some "") = false from rfl]
    exact key
  refine ⟨by rw [key2]; rfl, ?_⟩
  unfold run_add_patient
  rw [key2]
  decide

/-- Claim C4, amended: a strict-mode trial rejects any truthy
(non-empty) `manualArm` with `OperationNotPermitted` before touching
the registry; an empty-string `manualArm` is instead treated as absent
by the `if manual_arm:` truthiness test. -/
theorem add_patient_strict_truthy_manual_rejected (m : Minimiser) (pid : String)
    (chars : List (String × String)) (ma : Option String)
    (hstrict : m.strict_mode = true) (hma : truthyArm ma = true) :
    add_patient m pid chars ma = .error .operationNotPermitted ∧
      run_add_patient m pid chars ma = m := by
  have h1 : add_patient m pid chars ma = .error .operationNotPermitted := by
    unfold add_patient
    rw [hma, hstrict]
    rfl
  refine ⟨h1, ?_⟩
  unfold run_add_patient
  rw [h1]

/-- Witness for the amended C4 at a concrete input. -/
theorem add_patient_strict_truthy_manual_rejected_witness :
    trialBase.strict_mode = true ∧ truthyArm (some "A") = true ∧
      (add_patient trialBase "p9" [("gender", "male"), ("age_group", "<=50")] (some "A") =
          .error .operationNotPermitted ∧
        run_add_patient trialBase "p9" [("gender", "male"), ("age_group", "<=50")]
          (some "A") = trialBase) :=
  ⟨rfl, by decide,
    add_patient_strict_truthy_manual_rejected trialBase "p9"
      [("gender", "male"), ("age_group", "<=50")] (some "A") rfl (by decide)⟩

/-! ### Claim C6: tie-break for unseen candidates -/

theorem foldl_min_all_zero {α : Type} (f : α → Nat) (xs : List α) :
    xs.foldl (fun b y => min b (f y)) 0 = 0 :=
  Nat.le_zero.mp (foldl_min_le_init f 0 xs)

theorem foldl_max_all_zero {α : Type} (f : α → Nat) (xs : List α)
    (h : ∀ y ∈ xs, f y = 0) : xs.foldl (fun b y => max b (f y)) 0 = 0 := by
  induction xs with
  | nil => rfl
  | cons y ys ih =>
    simp only [List.foldl_cons, h y (List.mem_cons_self _ _), Nat.max_self]
    exact ih (fun z hz => h z (List.mem_cons_of_mem _ hz))

/-- Claim C6, counterexample: a candidate male aged at most 50, facing
a single enrolled active patient who is male and over 50, has an
unseen characteristic combination, yet the minimisation scores are
A = 1, B = 0 (scores count per-variable value matches, not
combinations), so the arm is chosen by the min-score rule, not by the
tie-break. -/
theorem unseen_combination_not_tie_broken :
    (trialC6.df_patients.filter (fun p => p.active &&
        (p.characteristics.lookup "gender" == some "male") &&
        (p.characteristics.lookup "age_group" == some "<=50"))).length = 0 ∧
      trialC6.minimisation_weight = 1 ∧
      trialC6.tie_condition [("gender", "male"), ("age_group", "<=50")] = false ∧
      trialC6.get_minimised_arm [("gender", "male"), ("age_group", "<=50")] = .ok "B" :=
  ⟨by decide, rfl, by decide, by decide⟩

/-- Claim C6, amended: under full minimisation weight and a non-empty
registry, a candidate none of whose individual characteristic values
appears on any active enrolled patient scores 0 on every arm, so the
allocation is decided by the hash tie-break over
`minimisation_tie_` and the stringified characteristic values. -/
theorem unseen_values_tie_broken (m : Minimiser) (id : String)
    (chars : List (String × String))
    (hne : m.df_patients ≠ [])
    (hw : m.minimisation_weight = 1)
    (hnd : (chars.map Prod.fst).Nodup)
    (hok : m.check_valid_characteristics chars = .ok ())
    (harms : m.arms ≠ [])
    (hunseen : ∀ cv ∈ chars, ∀ p ∈ m.df_patients, p.active = true →
      p.characteristics.lookup cv.1 ≠ some cv.2)
    (hfresh : (m.df_patients.map Patient.id).contains id = false) :
    m.tie_condition chars = true ∧
      m.alloc_arm id chars none =
        m.indexed_arm (m.deterministic_random (Minimiser.tie_key chars)) := by
  have hvalid := check_ok_pairs_valid m chars hnd hok
  have hfind := find_invalid_none m chars hvalid
  have hscore0 : ∀ a, m.arm_score chars a = 0 := by
    intro a
    unfold Minimiser.arm_score
    apply List.sum_eq_zero
    intro x hx
    obtain ⟨cv, hcv, rfl⟩ := List.mem_map.mp hx
    unfold Minimiser.match_count
    rw [List.length_eq_zero, List.filter_eq_nil_iff]
    intro p hp
    by_cases hact : p.active
    · have hlk := hunseen cv hcv p hp hact
      simp [hlk]
    · simp [hact]
  have htot : m.arm_totals chars = m.arms.map (fun a => (a, 0)) := by
    unfold Minimiser.arm_totals
    exact List.map_congr_left (fun a _ => by rw [hscore0 a])
  obtain ⟨a0, as, ha⟩ := List.exists_cons_of_ne_nil harms
  have htot2 : m.arm_totals chars = (a0, 0) :: as.map (fun a => (a, 0)) := by
    rw [htot, ha, List.map_cons]
  have hz : ∀ y ∈ as.map (fun a => (a, 0)), Prod.snd y = 0 := by
    intro y hy
    obtain ⟨b, _, rfl⟩ := List.mem_map.mp hy
    rfl
  have hminv : (pyMinBy Prod.snd ((a0 : String), (0 : Nat))
      (as.map (fun a => (a, 0)))).2 = 0 := by
    rw [pyMinBy_val Prod.snd (a0, 0) (as.map (fun a => (a, 0)))]
    exact foldl_min_all_zero _ _
  have hmaxv : (pyMaxBy Prod.snd ((a0 : String), (0 : Nat))
      (as.map (fun a => (a, 0)))).2 = 0 := by
    rw [pyMaxBy_val Prod.snd (a0, 0) (as.map (fun a => (a, 0)))]
    exact foldl_max_all_zero _ _ hz
  have htie : m.tie_condition chars = true := by
    unfold Minimiser.tie_condition
    simp only [htot2]
    rw [hminv, hmaxv]
    rfl
  have hgm : m.get_minimised_arm chars =
      m.indexed_arm (m.deterministic_random (Minimiser.tie_key chars)) := by
    unfold Minimiser.get_minimised_arm
    rw [hfind]
    simp only [htot2]
    rw [hminv, hmaxv]
    rfl
  refine ⟨htie, ?_⟩
  unfold Minimiser.alloc_arm Minimiser.randomise_patient Minimiser.choose_arm
  rw [hok]
  have hn0 : (m.get_n_patients == 0) = false := by
    unfold Minimiser.get_n_patients
    simpa [List.length_eq_zero] using hne
  have hle : m.deterministic_random (id ++ "_allocation") ≤ m.minimisation_weight := by
    rw [deterministic_random_eq_sample, hw]
    exact sample_le_one _ _
  simp only [hn0, Option.isSome_none, Bool.and_false, Bool.false_eq_true, if_false,
    if_pos hle, hgm]
  cases hia : m.indexed_arm (m.deterministic_random (Minimiser.tie_key chars)) with
  | error e => rfl
  | ok a =>
    unfold Minimiser._add_patient_to_arm
    rw [hfresh]
    rfl

/-- Witness for the amended C6: a candidate female under 50 against a
single active male over-50 patient shares no value with it; both arms
score 0 and the tie-break decides. -/
theorem unseen_values_tie_broken_witness :
    trialC6.tie_condition [("gender", "female"), ("age_group", "<=50")] = true ∧
      trialC6.alloc_arm "p2" [("gender", "female"), ("age_group", "<=50")] none =
        trialC6.indexed_arm (trialC6.deterministic_random
          (Minimiser.tie_key [("gender", "female"), ("age_group", "<=50")])) :=
  unseen_values_tie_broken trialC6 "p2" [("gender", "female"), ("age_group", "<=50")]
    (by decide) rfl (by decide) (by decide) (by decide) (by decide) (by decide)

/-! ### Claim C7: partial ties do not trigger the tie-break -/

/-- Claim C7: with three or more arms, whenever at least two arms share
the minimum score but the scores are not all equal, the minimisation
sub-procedure does not take the tie-break branch and returns the first
arm, in configured arm order, whose score equals the minimum. -/
theorem partial_tie_returns_first_min (m : Minimiser) (chars : List (String × String))
    (h3 : 3 ≤ m.arms.length)
    (hval : ∀ p ∈ chars, ((m.minimisation_vars.lookup p.1).getD []).contains p.2 = true)
    (hshared : 2 ≤ ((m.arm_totals chars).filter
      (fun p => p.2 == spec_min_score m chars)).length)
    (hlt : spec_min_score m chars < spec_max_score m chars) :
    m.tie_condition chars = false ∧
      ∃ a, m.get_minimised_arm chars = .ok a ∧ spec_first_min_arm m chars = some a := by
  have hfind := find_invalid_none m chars hval
  cases harm : m.arm_totals chars with
  | nil =>
    exfalso
    have : m.arm_totals chars ≠ [] := by
      unfold Minimiser.arm_totals
      intro hc
      rw [List.map_eq_nil_iff] at hc
      rw [hc] at h3
      exact absurd h3 (by norm_num)
    exact this harm
  | cons x xs =>
    have hminval : (pyMinBy Prod.snd x xs).2 = spec_min_score m chars := by
      rw [pyMinBy_val Prod.snd x xs]
      unfold spec_min_score
      rw [harm]
    have hmaxval : (pyMaxBy Prod.snd x xs).2 = spec_max_score m chars := by
      rw [pyMaxBy_val Prod.snd x xs]
      unfold spec_max_score
      rw [harm]
    have hbe : ((pyMinBy Prod.snd x xs).2 == (pyMaxBy Prod.snd x xs).2) = false := by
      rw [hminval, hmaxval]
      simp only [beq_eq_false_iff_ne, ne_eq]
      omega
    constructor
    · unfold Minimiser.tie_condition
      simp only [harm]
      exact hbe
    · refine ⟨(pyMinBy Prod.snd x xs).1, ?_, ?_⟩
      · unfold Minimiser.get_minimised_arm
        rw [hfind]
        simp only [harm]
        rw [hbe]
        rfl
      · unfold spec_first_min_arm
        rw [harm]
        have := pyMinBy_eq_find Prod.snd x xs
        rw [show spec_min_score m chars =
            xs.foldl (fun b y => min b y.2) x.2 from by unfold spec_min_score; rw [harm]]
        rw [this]
        rfl

/-- Witness for C7: three arms, one active male patient on arm C, and
a male candidate give scores A = 0, B = 0, C = 2; arms A and B share
the minimum while C is higher, and arm A (the first minimal arm) is
returned without a tie-break. -/
theorem partial_tie_returns_first_min_witness :
    trialC7.tie_condition [("gender", "male"), ("age_group", "<=50")] = false ∧
      ∃ a, trialC7.get_minimised_arm [("gender", "male"), ("age_group", "<=50")] = .ok a ∧
        spec_first_min_arm trialC7 [("gender", "male"), ("age_group", "<=50")] = some a :=
  partial_tie_returns_first_min trialC7 [("gender", "male"), ("age_group", "<=50")]
    (by decide) (by decide) (by decide) (by decide)

/-! ### Claim C8: duplicate patient ids -/

/-- Claim C8, counterexample: with patient "p1" already enrolled,
calling the allocation with id "p1" and an empty characteristics
mapping fails with the schema error, not with `DuplicateEntity`: the
characteristics check at the top of `randomise_patient` runs before
the duplicate-id check in `_add_patient_to_arm`. -/
theorem duplicate_id_invalid_chars_error :
    Minimiser.randomise_patient trialC8 "p1" [] none =
        .error (.schemaMismatch [] ["age_group", "gender"]) ∧
      Minimiser.randomise_patient trialC8 "p1" [] none ≠
        .error (.duplicateEntity "p1") := by
  constructor
  · decide
  · decide

/-- Claim C8, amended: a duplicate id with configuration-valid
characteristics and no manual arm fails with `DuplicateEntity` and
leaves the registry exactly as it was (the hash-index hypotheses rule
out the independent `IndexError` corner of C10 on the chance and
tie-break paths, which would otherwise fire before the duplicate
check). -/
theorem duplicate_valid_id_duplicate_error (m : Minimiser) (id : String)
    (chars : List (String × String))
    (hnd : (chars.map Prod.fst).Nodup)
    (hok : m.check_valid_characteristics chars = .ok ())
    (hdup : (m.df_patients.map Patient.id).contains id = true)
    (harms : m.arms ≠ [])
    (hh1 : hashFirstWord (id ++ "_" ++ m.seed) ≠ 4294967295)
    (hh2 : hashFirstWord (Minimiser.tie_key chars ++ "_" ++ m.seed) ≠ 4294967295) :
    Minimiser.randomise_patient m id chars none = .error (.duplicateEntity id) ∧
      m.run_randomise id chars none = m := by
  have hvalid := check_ok_pairs_valid m chars hnd hok
  have hfind := find_invalid_none m chars hvalid
  have hmem : id ∈ m.df_patients.map Patient.id := by
    simpa using hdup
  have hne : m.df_patients ≠ [] := by
    intro hc
    rw [hc] at hmem
    cases hmem
  have hn0 : (m.get_n_patients == 0) = false := by
    unfold Minimiser.get_n_patients
    simpa [List.length_eq_zero] using hne
  have hca : ∃ a, m.choose_arm id chars none = .ok a := by
    unfold Minimiser.choose_arm
    simp only [hn0, Option.isSome_none, Bool.and_false, Bool.false_eq_true, if_false]
    by_cases hwb : m.deterministic_random (id ++ "_allocation") ≤ m.minimisation_weight
    · rw [if_pos hwb]
      unfold Minimiser.get_minimised_arm
      rw [hfind]
      cases harmtot : m.arm_totals chars with
      | nil =>
        exfalso
        apply harms
        have := congrArg List.length harmtot
        unfold Minimiser.arm_totals at this
        rw [List.length_map] at this
        exact List.length_eq_zero.mp this
      | cons x xs =>
        by_cases htie : ((pyMinBy Prod.snd x xs).2 == (pyMaxBy Prod.snd x xs).2) = true
        · simp only [htie, if_true]
          obtain ⟨a, ha, _⟩ := indexed_arm_ok m (Minimiser.tie_key chars) harms hh2
          exact ⟨a, ha⟩
        · simp only [Bool.not_eq_true] at htie
          simp only [htie, Bool.false_eq_true, if_false]
          exact ⟨_, rfl⟩
    · rw [if_neg hwb]
      obtain ⟨a, ha, _⟩ := indexed_arm_ok m id harms hh1
      exact ⟨a, ha⟩
  obtain ⟨a, hca⟩ := hca
  have hr : Minimiser.randomise_patient m id chars none = .error (.duplicateEntity id) := by
    unfold Minimiser.randomise_patient
    rw [hok, hca]
    unfold Minimiser._add_patient_to_arm
    rw [hdup]
    rfl
  refine ⟨hr, ?_⟩
  unfold Minimiser.run_randomise
  rw [hr]

/-- Witness for the amended C8: re-enrolling "p1" with valid
characteristics fails with the duplicate error and the registry is
unchanged. -/
theorem duplicate_valid_id_duplicate_error_witness :
    Minimiser.randomise_patient trialC8 "p1" [("gender", "male"), ("age_group", ">50")] none =
        .error (.duplicateEntity "p1") ∧
      trialC8.run_randomise "p1" [("gender", "male"), ("age_group", ">50")] none = trialC8 :=
  duplicate_valid_id_duplicate_error trialC8 "p1" [("gender", "male"), ("age_group", ">50")]
    (by decide) (by decide) (by decide) (by decide) (by decide) (by decide)

/-! ### Claim C9: deactivate / reactivate semantics -/

theorem filter_match_deact (pid a k v : String) (l : List Patient) :
    ((l.map (fun p => if p.id = pid then { p with active := false } else p)).filter
        (fun p => p.active && p.arm == a && (p.characteristics.lookup k == some v))) =
      ((l.filter (fun p => p.id != pid)).filter
        (fun p => p.active && p.arm == a && (p.characteristics.lookup k == some v))) := by
  induction l with
  | nil => rfl
  | cons p t ih =>
    by_cases hid : p.id = pid
    · simp only [List.map_cons, if_pos hid, List.filter_cons]
      have h1 : (({ p with active := false } : Patient).active &&
          ({ p with active := false } : Patient).arm == a &&
          (({ p with active := false } : Patient).characteristics.lookup k == some v)) =
            false := by
        simp
      have h2 : (p.id != pid) = false := by simp [hid]
      simp only [h1, h2, Bool.false_eq_true, if_false, ih]
    · simp only [List.map_cons, if_neg hid, List.filter_cons]
      have h2 : (p.id != pid) = true := by simp [hid]
      simp only [h2, if_true, List.filter_cons, ih]

theorem filter_active_deact (pid : String) (l : List Patient) :
    ((l.map (fun p => if p.id = pid then { p with active := false } else p)).filter
        (fun p => p.active == true)) =
      (l.filter (fun p => p.active && p.id != pid)) := by
  induction l with
  | nil => rfl
  | cons p t ih =>
    simp only [beq_true] at ih ⊢
    by_cases hid : p.id = pid
    · have h2 : (p.id != pid) = false := by simp [hid]
      simp [hid, h2, ih]
    · have h2 : (p.id != pid) = true := by simp [hid]
      cases hact : p.active with
      | false => simp [hid, h2, hact, ih]
      | true => simp [hid, h2, hact, ih]

/-- Claim C9: deactivating an enrolled (active) patient removes it from
every subsequent minimisation score and from the active count, while
the total count, the patient's arm and every other field of every
record are unchanged; reactivating it restores the original state,
with the patient back in the active count and the score counts. -/
theorem deactivate_reactivate_semantics (m : Minimiser) (pid : String)
    (henrolled : (m.df_patients.map Patient.id).contains pid = true)
    (hact : ∀ p ∈ m.df_patients, p.id = pid → p.active = true) :
    ∃ m1, m.deactivate_patient pid = .ok m1 ∧
      (∀ chars a, m1.arm_score chars a = Minimiser.arm_score
        { m with df_patients := m.df_patients.filter (fun p => p.id != pid) } chars a) ∧
      m1.get_active_patients =
        (m.df_patients.filter (fun p => p.active && p.id != pid)).length ∧
      m1.get_n_patients = m.get_n_patients ∧
      m1.df_patients.map (fun p => (p.id, p.characteristics, p.arm)) =
        m.df_patients.map (fun p => (p.id, p.characteristics, p.arm)) ∧
      m1.reactivate_patient pid = .ok m := by
  have hdeact : m.deactivate_patient pid = .ok { m with
      df_patients := m.df_patients.map
          (fun p => if p.id = pid then { p with active := false } else p) } := by
    unfold Minimiser.deactivate_patient
    rw [henrolled]
    rfl
  refine ⟨_, hdeact, ?_, ?_, ?_, ?_, ?_⟩
  · intro chars a
    unfold Minimiser.arm_score
    apply congrArg List.sum
    apply List.map_congr_left
    intro cv _
    unfold Minimiser.match_count
    apply congrArg List.length
    exact filter_match_deact pid a cv.1 cv.2 m.df_patients
  · unfold Minimiser.get_active_patients
    cases hdf : m.df_patients with
    | nil => rw [hdf] at henrolled; simp at henrolled
    | cons p t =>
      simp only [List.map_cons, List.isEmpty_cons, Bool.false_eq_true, if_false]
      have := filter_active_deact pid (p :: t)
      simp only [List.map_cons] at this
      rw [this]
  · unfold Minimiser.get_n_patients
    simp
  · rw [List.map_map]
    apply List.map_congr_left
    intro p _
    by_cases hid : p.id = pid <;> simp [hid]
  · unfold Minimiser.reactivate_patient
    have hids : ((m.df_patients.map
        (fun p => if p.id = pid then { p with active := false } else p)).map
          Patient.id) = m.df_patients.map Patient.id := by
      rw [List.map_map]
      apply List.map_congr_left
      intro p _
      by_cases hid : p.id = pid <;> simp [hid]
    have hmap : (m.df_patients.map
        (fun p => if p.id = pid then { p with active := false } else p)).map
          (fun p => if p.id = pid then { p with active := true } else p) =
        m.df_patients := by
      rw [List.map_map]
      have hcomp : ∀ p ∈ m.df_patients,
          ((fun p => if p.id = pid then { p with active := true } else p) ∘
            (fun p => if p.id = pid then { p with active := false } else p)) p = p := by
        intro p hp
        by_cases hid : p.id = pid
        · obtain ⟨pi, pc, pa, pact⟩ := p
          have hpact : pact = true := hact _ hp hid
          subst hpact
          simp only [Function.comp_apply]
          rw [if_pos hid]
          rw [if_pos (show ({ id := pi, characteristics := pc, arm := pa, active := false } :
            Patient).id = pid from hid)]
        · simp [Function.comp_apply, hid]
      calc m.df_patients.map _ = m.df_patients.map id := List.map_congr_left hcomp
        _ = m.df_patients := List.map_id _
    dsimp only
    rw [hids, henrolled]
    show Except.ok { m with
        df_patients := (m.df_patients.map
              (fun p => if p.id = pid then { p with active := false } else p)).map
            (fun p => if p.id = pid then { p with active := true } else p) } = Except.ok m
    rw [hmap]

/-- Witness for C9: deactivating and reactivating "p1" in the
two-patient trial. -/
theorem deactivate_reactivate_semantics_witness :
    ∃ m1, trialC9.deactivate_patient "p1" = .ok m1 ∧
      (∀ chars a, m1.arm_score chars a = Minimiser.arm_score
        { trialC9 with df_patients := trialC9.df_patients.filter (fun p => p.id != "p1") }
        chars a) ∧
      m1.get_active_patients =
        (trialC9.df_patients.filter (fun p => p.active && p.id != "p1")).length ∧
      m1.get_n_patients = trialC9.get_n_patients ∧
      m1.df_patients.map (fun p => (p.id, p.characteristics, p.arm)) =
        trialC9.df_patients.map (fun p => (p.id, p.characteristics, p.arm)) ∧
      m1.reactivate_patient "p1" = .ok trialC9 :=
  deactivate_reactivate_semantics trialC9 "p1" (by decide) (by decide)

/-! ### Claim C5: the balance-table augmentation -/

/-- Claim C5 (code bug): for the 2-arm scenario with active counts
A: male=2, female=1 and B: male=1, female=2, the display function
raises on line 639's `if not tables:` (pandas `DataFrame` truthiness)
before any table is rendered; and each per-variable table produced by
`characteristics_by_arm` has one row per arm — 2 rows, no Total row —
so line 648's `shape[0] <= 2` guard would skip the Skew/Imbalance
augmentation for every 2-arm trial anyway.  The augmentation
arithmetic of lines 666-697, applied to the scenario's row (2,1) and
columns (2,1)/(1,2), does yield exactly the claimed cell `1 (33%)`,
confirming the spec describes the intended computation. -/
theorem balance_table_never_augmented :
    display_minimisation_table trialC5 =
        .error "The truth value of a DataFrame is ambiguous." ∧
      augmentation_skipped trialC5 = true ∧
      augmentation_cell [2, 1] = "1 (33%)" ∧
      augmentation_cell [1, 2] = "1 (33%)" := by
  have hfl : ⌊(100 : ℚ) / 3⌋ = 33 := by
    rw [Int.floor_eq_iff]
    norm_num
  have hpr : pyRound ((100 : ℚ) / 3) = 33 := by
    unfold pyRound
    rw [hfl]
    norm_num
  refine ⟨by decide, by decide, ?_, ?_⟩
  · show toString (1 : ℕ) ++ " (" ++
      toString (pyRound (((1 : ℕ) : ℚ) / ((3 : ℕ) : ℚ) * 100)) ++ "%)" = "1 (33%)"
    rw [show ((1 : ℕ) : ℚ) / ((3 : ℕ) : ℚ) * 100 = (100 : ℚ) / 3 from by push_cast; ring]
    rw [hpr]
    decide
  · show toString (1 : ℕ) ++ " (" ++
      toString (pyRound (((1 : ℕ) : ℚ) / ((3 : ℕ) : ℚ) * 100)) ++ "%)" = "1 (33%)"
    rw [show ((1 : ℕ) : ℚ) / ((3 : ℕ) : ℚ) * 100 = (100 : ℚ) / 3 from by push_cast; ring]
    rw [hpr]
    decide

/-- Validation of the SHA-256 embedding against the FIPS 180 test
vector: the digest of "abc" begins ba7816bf. -/
theorem sha256_embedding_test_vector : hashFirstWord "abc" = 3128432319 := by decide

end Minimeyes
